import Mathlib

/-! Verification development for the ovsdb client library. The definitions
below are a shallow embedding of the library's protocol value algebra
(set, uuid, map, optional, enumeration), its schema parser, its message
codec and framing scanner, its client response handling, and the record
generator's field naming, each translated from the corresponding source
file. Theorems at the end of the file settle the specified properties
against these definitions. -/

namespace Ovsdb

/-- JSON values as carried by serde_json. Numbers are restricted to the
integers exercised by the embedded code paths; no claim touches real
(floating point) literals. -/
inductive Json where
  | null : Json
  | bool (b : Bool) : Json
  | int (n : Int) : Json
  | str (s : String) : Json
  | arr (elems : List Json) : Json
  | obj (entries : List (String × Json)) : Json

/-- Outcome of running a serde decoder: a decoded value, a decode error
returned to the caller, or a Rust panic (an unwrap, expect or todo
reached during decoding). -/
inductive DRes (α : Type) where
  | ok (val : α) : DRes α
  | err : DRes α
  | panic : DRes α
deriving DecidableEq

/-- serde_json from_value for String: only a JSON string succeeds. -/
def decodeString : Json → DRes String
  | Json.str s => .ok s
  | _ => .err

/-- serde_json from_value for i64: only a JSON integer succeeds. -/
def decodeInt : Json → DRes Int
  | Json.int n => .ok n
  | _ => .err

/-- serde_json from_value for bool. -/
def decodeBool : Json → DRes Bool
  | Json.bool b => .ok b
  | _ => .err

/-- serde deserialization of Option of T: JSON null yields None, any other
value is fed to the inner decoder. -/
def decodeOption {α : Type} (d : Json → DRes α) : Json → DRes (Option α)
  | Json.null => .ok none
  | j =>
    match d j with
    | .ok x => .ok (some x)
    | .err => .err
    | .panic => .panic

/-- serde deserialization of the elements of a Vec of T: the first failing
element aborts with its outcome. -/
def decodeElems {α : Type} (d : Json → DRes α) : List Json → DRes (List α)
  | [] => .ok []
  | x :: xs =>
    match d x with
    | .ok v =>
      match decodeElems d xs with
      | .ok vs => .ok (v :: vs)
      | .err => .err
      | .panic => .panic
    | .err => .err
    | .panic => .panic

/-- serde deserialization of Vec of T: only a JSON array succeeds. -/
def decodeListWith {α : Type} (d : Json → DRes α) : Json → DRes (List α)
  | Json.arr xs => decodeElems d xs
  | _ => .err

def Json.isString : Json → Bool
  | Json.str _ => true
  | _ => false

/-- A v4 UUID as 32 hexadecimal digits (protocol/uuid.rs wraps the
external uuid crate's 128 bit value). -/
abbrev Uuid := { l : List (Fin 16) // l.length = 32 }

def toHexChar (d : Fin 16) : Char :=
  if d.val < 10 then Char.ofNat (48 + d.val) else Char.ofNat (87 + d.val)

/-- Numeric value of a hexadecimal digit character, either case. -/
def fromHexChar (c : Char) : Option (Fin 16) :=
  if h : 48 ≤ c.toNat ∧ c.toNat ≤ 57 then some ⟨c.toNat - 48, by omega⟩
  else if h2 : 97 ≤ c.toNat ∧ c.toNat ≤ 102 then some ⟨c.toNat - 87, by omega⟩
  else if h3 : 65 ≤ c.toNat ∧ c.toNat ≤ 70 then some ⟨c.toNat - 55, by omega⟩
  else none

/-- Hyphenated lowercase rendering 8-4-4-4-12, as produced by the uuid
crate's to_string and by its serde Serialize. -/
def uuidChars (l : List (Fin 16)) : List Char :=
  let h := l.map toHexChar
  h.take 8 ++ '-' :: (h.drop 8).take 4 ++ '-' :: (h.drop 12).take 4 ++
    '-' :: (h.drop 16).take 4 ++ '-' :: h.drop 20

def Uuid.toString (u : Uuid) : String := String.mk (uuidChars u.val)

/-- Read exactly n hexadecimal digits. -/
def readHex : Nat → List Char → Option (List (Fin 16) × List Char)
  | 0, cs => some ([], cs)
  | _ + 1, [] => none
  | n + 1, c :: cs =>
    match fromHexChar c with
    | some d =>
      match readHex n cs with
      | some (ds, rest) => some (d :: ds, rest)
      | none => none
    | none => none

/-- Modelled from the spec: the external uuid crate's Uuid parse_str,
restricted to the RFC 4122 hyphenated form (8-4-4-4-12 hex digits, either
case) that the embedded code paths exercise. -/
def uuidParse (s : String) : Option Uuid :=
  match readHex 8 s.toList with
  | some (a, '-' :: r1) =>
    match readHex 4 r1 with
    | some (b, '-' :: r2) =>
      match readHex 4 r2 with
      | some (c, '-' :: r3) =>
        match readHex 4 r3 with
        | some (d, '-' :: r4) =>
          match readHex 12 r4 with
          | some (e, []) =>
            let l := a ++ b ++ c ++ d ++ e
            if h : l.length = 32 then some ⟨l, h⟩ else none
          | _ => none
        | _ => none
      | _ => none
    | _ => none
  | _ => none

/-- protocol/uuid.rs Serialize: a two element sequence tagged "uuid". -/
def Uuid.encode (u : Uuid) : Json :=
  Json.arr [Json.str "uuid", Json.str (Uuid.toString u)]

/-- protocol/uuid.rs Deserialize (UuidVisitor::visit_seq). A missing tag is
an error; a present tag with a missing value panics (expect). -/
def Uuid.decode : Json → DRes Uuid
  | Json.arr [] => .err
  | Json.arr (e :: rest) =>
    match decodeString e with
    | .ok kind =>
      if kind = "uuid" then
        match rest with
        | [] => .panic
        | v :: rest2 =>
          match decodeString v with
          | .ok s =>
            match uuidParse s with
            | some u => if rest2.isEmpty then .ok u else .err
            | none => .err
          | _ => .err
      else .err
    | _ => .err
  | _ => .err

/-- protocol/set.rs Serialize for Set of T: a two element sequence tagged
"set" whose payload is the element list. -/
def Set.encode {α : Type} (encT : α → Json) (xs : List α) : Json :=
  Json.arr [Json.str "set", Json.arr (xs.map encT)]

/-- protocol/set.rs Deserialize (SetVisitor::visit_seq). Both next_element
calls are unwrapped, so a missing tag or a missing payload panics; extra
trailing elements are rejected by serde_json after the visitor returns. -/
def Set.decode {α : Type} (decT : Json → DRes α) : Json → DRes (List α)
  | Json.arr [] => .panic
  | Json.arr (e :: rest) =>
    match decodeString e with
    | .ok kind =>
      if kind = "set" then
        match rest with
        | [] => .panic
        | v :: rest2 =>
          match decodeListWith decT v with
          | .ok xs => if rest2.isEmpty then .ok xs else .err
          | .err => .err
          | .panic => .panic
      else .err
    | _ => .err
  | _ => .err

/-- protocol/set.rs Serialize for UuidSet: always the tagged "set" form. -/
def UuidSet.encode (xs : List Uuid) : Json :=
  Json.arr [Json.str "set", Json.arr (xs.map Uuid.encode)]

/-- protocol/set.rs Deserialize (UuidSetVisitor::visit_seq): tag "set"
takes a uuid list payload, tag "uuid" takes a single uuid string and
yields a one element set; other tags are errors. The unwraps on the
next_element calls panic when the payload is missing. -/
def UuidSet.decode : Json → DRes (List Uuid)
  | Json.arr [] => .panic
  | Json.arr (e :: rest) =>
    match decodeString e with
    | .ok kind =>
      if kind = "set" then
        match rest with
        | [] => .panic
        | v :: rest2 =>
          match decodeListWith Uuid.decode v with
          | .ok xs => if rest2.isEmpty then .ok xs else .err
          | .err => .err
          | .panic => .panic
      else if kind = "uuid" then
        match rest with
        | [] => .panic
        | v :: rest2 =>
          match decodeString v with
          | .ok s =>
            match uuidParse s with
            | some u => if rest2.isEmpty then .ok [u] else .err
            | none => .err
          | _ => .err
      else .err
    | _ => .err
  | _ => .err

/-- Lexicographic byte order on strings, the Ord that Rust's String gives
to BTreeMap keys. -/
def charListLt : List Char → List Char → Bool
  | [], [] => false
  | [], _ :: _ => true
  | _ :: _, [] => false
  | a :: as, b :: bs =>
    if a.toNat < b.toNat then true
    else if b.toNat < a.toNat then false
    else charListLt as bs

def strLt (a b : String) : Bool := charListLt a.toList b.toList

/-- BTreeMap insert on an association list kept sorted by the given
strict order: smaller keys come first, an equal key replaces the stored
value. -/
def insertSorted {K V : Type} (ltK : K → K → Bool) (k : K) (v : V) :
    List (K × V) → List (K × V)
  | [] => [(k, v)]
  | (k', v') :: rest =>
    if ltK k k' then (k, v) :: (k', v') :: rest
    else if ltK k' k then (k', v') :: insertSorted ltK k v rest
    else (k, v) :: rest

/-- protocol/map.rs Serialize: a two element sequence tagged "map" whose
payload is the list of key/value pairs in BTreeMap (key) order. -/
def Map.encode {K V : Type} (encK : K → Json) (encV : V → Json)
    (l : List (K × V)) : Json :=
  Json.arr [Json.str "map",
    Json.arr (l.map (fun kv => Json.arr [encK kv.1, encV kv.2]))]

/-- serde deserialization of a pair (K, V): an array of exactly two
elements. -/
def decodePair {K V : Type} (dK : Json → DRes K) (dV : Json → DRes V) :
    Json → DRes (K × V)
  | Json.arr [kj, vj] =>
    match dK kj with
    | .ok k =>
      match dV vj with
      | .ok v => .ok (k, v)
      | .err => .err
      | .panic => .panic
    | .err => .err
    | .panic => .panic
  | _ => .err

/-- protocol/map.rs Deserialize (MapVisitor::visit_seq): a missing tag is
an error, a missing payload panics (expect), and the decoded pairs are
inserted into a fresh BTreeMap in order. -/
def Map.decode {K V : Type} (ltK : K → K → Bool) (dK : Json → DRes K)
    (dV : Json → DRes V) : Json → DRes (List (K × V))
  | Json.arr [] => .err
  | Json.arr (e :: rest) =>
    match decodeString e with
    | .ok kind =>
      if kind = "map" then
        match rest with
        | [] => .panic
        | v :: rest2 =>
          match decodeListWith (decodePair dK dV) v with
          | .ok ps =>
            if rest2.isEmpty then
              .ok (ps.foldl (fun acc kv => insertSorted ltK kv.1 kv.2 acc) [])
            else .err
          | .err => .err
          | .panic => .panic
      else .err
    | _ => .err
  | _ => .err

/-- protocol/optional.rs Serialize: a present value serializes as the
inner value; an absent value serializes as a two element sequence whose
tag is the string literal written in the source, which is "map". -/
def Optional.encode {α : Type} (encT : α → Json) : Option α → Json
  | some x => encT x
  | none => Json.arr [Json.str "map", Json.arr []]

/-- protocol/optional.rs Deserialize: a two element array tagged "set"
with an empty array payload is the absent value; anything else is fed to
the inner decoder and wrapped as present. -/
def Optional.decode {α : Type} (decT : Json → DRes α) (j : Json) :
    DRes (Option α) :=
  match j with
  | Json.arr [Json.str "set", Json.arr []] => .ok none
  | _ =>
    match decT j with
    | .ok x => .ok (some x)
    | .err => .err
    | .panic => .panic

/-- protocol/enumeration.rs serialize: the default variant encodes as an
empty Set of i32 and every other value uses its own serializer. -/
def enumeration.serialize {α : Type} [DecidableEq α] (dflt : α)
    (encT : α → Json) (v : α) : Json :=
  if v = dflt then Set.encode (fun n : Int => Json.int n) ([] : List Int)
  else encT v

/-- protocol/enumeration.rs deserialize: a string is fed to the enum's own
decoder; any other value is decoded as a Set of i32 and must be empty,
yielding the default variant. -/
def enumeration.deserialize {α : Type} (dflt : α) (decT : Json → DRes α)
    (j : Json) : DRes α :=
  if j.isString then decT j
  else
    match Set.decode decodeInt j with
    | .ok xs => if xs.isEmpty then .ok dflt else .err
    | .err => .err
    | .panic => .panic

/-- The fail_mode style enumeration from the protocol test module:
variants Secure, Standalone, None with snake_case wire names and default
None. -/
inductive TestFailMode where
  | secure : TestFailMode
  | standalone : TestFailMode
  | none : TestFailMode
deriving DecidableEq

instance : Inhabited TestFailMode := ⟨TestFailMode.none⟩

/-- Derived serde Deserialize of the enumeration: exact wire name match on
a JSON string, everything else an error. -/
def TestFailMode.fromValue : Json → DRes TestFailMode
  | Json.str "secure" => .ok TestFailMode.secure
  | Json.str "standalone" => .ok TestFailMode.standalone
  | Json.str "none" => .ok TestFailMode.none
  | _ => .err

/-- Derived serde Serialize of the enumeration: the wire name string. -/
def TestFailMode.encode : TestFailMode → Json
  | TestFailMode.secure => Json.str "secure"
  | TestFailMode.standalone => Json.str "standalone"
  | TestFailMode.none => Json.str "none"

def isWsChar (c : Char) : Bool :=
  c = ' ' || c = '\n' || c = '\t' || c = '\r'

def skipWs (cs : List Char) : List Char := cs.dropWhile isWsChar

/-- Collect the characters of a JSON string up to its closing quote
(escape sequences are outside the modelled subset; no embedded input uses
them). -/
def parseStrChars : List Char → Option (List Char × List Char)
  | [] => none
  | c :: rest =>
    if c = '\"' then some ([], rest)
    else
      match parseStrChars rest with
      | some (s, r) => some (c :: s, r)
      | none => none

def digitVal (c : Char) : Nat := c.toNat - 48

def charsToNat : List Char → Nat → Nat
  | [], acc => acc
  | c :: rest, acc => charsToNat rest (acc * 10 + digitVal c)

def parseNatTok (cs : List Char) : Option (Nat × List Char) :=
  let ds := cs.takeWhile Char.isDigit
  if ds.isEmpty then none else some (charsToNat ds 0, cs.dropWhile Char.isDigit)

def parseIntTok : List Char → Option (Int × List Char)
  | '-' :: rest =>
    match parseNatTok rest with
    | some (n, r) => some (-(n : Int), r)
    | none => none
  | cs =>
    match parseNatTok cs with
    | some (n, r) => some ((n : Int), r)
    | none => none

/-- Parsing mode: a value, the items of an array after its opening
bracket, or the members of an object after its opening brace. -/
inductive PMode where
  | val : PMode
  | arrItems : PMode
  | objItems : PMode

/-- Modelled from the spec: serde_json text parsing of one JSON document,
restricted to the subset the embedded inputs use (null, booleans,
integers, strings without escapes, arrays, objects). Objects collect into
a key-sorted map with later duplicates overwriting earlier ones, as
serde_json's object map does. The fuel argument only ensures termination
and is always ample for the inputs used. -/
def parseJ : Nat → PMode → List Char → Option (Json × List Char)
  | 0, _, _ => none
  | fuel + 1, PMode.val, cs =>
    match skipWs cs with
    | 'n' :: 'u' :: 'l' :: 'l' :: r => some (Json.null, r)
    | 't' :: 'r' :: 'u' :: 'e' :: r => some (Json.bool true, r)
    | 'f' :: 'a' :: 'l' :: 's' :: 'e' :: r => some (Json.bool false, r)
    | '\"' :: r =>
      match parseStrChars r with
      | some (s, r2) => some (Json.str (String.mk s), r2)
      | none => none
    | '[' :: r =>
      match skipWs r with
      | ']' :: r2 => some (Json.arr [], r2)
      | cs2 => parseJ fuel PMode.arrItems cs2
    | '\x7b' :: r =>
      match skipWs r with
      | '\x7d' :: r2 => some (Json.obj [], r2)
      | cs2 =>
        match parseJ fuel PMode.objItems cs2 with
        | some (Json.obj es, r3) =>
          some (Json.obj (es.foldl (fun acc kv => insertSorted strLt kv.1 kv.2 acc) []), r3)
        | _ => none
    | cs2 =>
      match parseIntTok cs2 with
      | some (n, r) => some (Json.int n, r)
      | none => none
  | fuel + 1, PMode.arrItems, cs =>
    match parseJ fuel PMode.val cs with
    | some (v, r) =>
      match skipWs r with
      | ',' :: r2 =>
        match parseJ fuel PMode.arrItems r2 with
        | some (Json.arr vs, r3) => some (Json.arr (v :: vs), r3)
        | _ => none
      | ']' :: r2 => some (Json.arr [v], r2)
      | _ => none
    | none => none
  | fuel + 1, PMode.objItems, cs =>
    match skipWs cs with
    | '\"' :: r =>
      match parseStrChars r with
      | some (k, r2) =>
        match skipWs r2 with
        | ':' :: r3 =>
          match parseJ fuel PMode.val r3 with
          | some (v, r4) =>
            match skipWs r4 with
            | ',' :: r5 =>
              match parseJ fuel PMode.objItems r5 with
              | some (Json.obj es, r6) => some (Json.obj ((String.mk k, v) :: es), r6)
              | _ => none
            | '\x7d' :: r5 => some (Json.obj [(String.mk k, v)], r5)
            | _ => none
          | none => none
        | _ => none
      | none => none
    | _ => none

def parseJson (cs : List Char) : Option (Json × List Char) :=
  parseJ (2 * cs.length + 4) PMode.val cs

/-- serde_json from_slice / from_str: exactly one document; trailing bytes
other than whitespace are an error. -/
def fromSliceJson (cs : List Char) : Option Json :=
  match parseJson cs with
  | some (j, rest) => if (skipWs rest).isEmpty then some j else none
  | none => none

/-- schema/atomic.rs Atomic. The derived Default is String. -/
inductive Atomic where
  | boolean : Atomic
  | integer : Atomic
  | real : Atomic
  | string : Atomic
  | uuid : Atomic
deriving DecidableEq

/-- schema/atomic.rs FromStr: lowercase and capitalized names accepted. -/
def Atomic.fromStr : String → Option Atomic
  | "boolean" => some Atomic.boolean
  | "Boolean" => some Atomic.boolean
  | "integer" => some Atomic.integer
  | "Integer" => some Atomic.integer
  | "real" => some Atomic.real
  | "Real" => some Atomic.real
  | "string" => some Atomic.string
  | "String" => some Atomic.string
  | "uuid" => some Atomic.uuid
  | "Uuid" => some Atomic.uuid
  | _ => none

/-- Derived serde Deserialize of Atomic with rename_all lowercase: only
the exact lowercase names are accepted, from a JSON string. -/
def Atomic.fromValue : Json → DRes Atomic
  | Json.str "boolean" => .ok Atomic.boolean
  | Json.str "integer" => .ok Atomic.integer
  | Json.str "real" => .ok Atomic.real
  | Json.str "string" => .ok Atomic.string
  | Json.str "uuid" => .ok Atomic.uuid
  | _ => .err

/-- schema/kind.rs RefType with its serde renames. -/
inductive RefType where
  | strong : RefType
  | weak : RefType
deriving DecidableEq

def RefType.fromValue : Json → DRes RefType
  | Json.str "strong" => .ok RefType.strong
  | Json.str "weak" => .ok RefType.weak
  | _ => .err

/-- schema/kind.rs BaseKind. The two real-valued bounds are carried as
integers in the model, since no embedded input or claim uses non-integer
numbers. -/
structure BaseKind where
  kind : Atomic := Atomic.string
  choices : Option (List String) := none
  min_integer : Option Int := none
  max_integer : Option Int := none
  min_real : Option Int := none
  max_real : Option Int := none
  min_length : Option Int := none
  max_length : Option Int := none
  ref_table : Option String := none
  ref_type : Option RefType := none
deriving DecidableEq

/-- schema/kind.rs BaseKindVisitor::visit_map: known fields are decoded
(later occurrences overwrite), an unknown field is an error. -/
def baseKindLoop : List (String × Json) → BaseKind → DRes BaseKind
  | [], b => .ok b
  | (k, v) :: rest, b =>
    if k = "type" then
      match Atomic.fromValue v with
      | .ok a => baseKindLoop rest { b with kind := a }
      | .err => .err
      | .panic => .panic
    else if k = "enum" then
      match Set.decode decodeString v with
      | .ok cs => baseKindLoop rest { b with choices := some cs }
      | .err => .err
      | .panic => .panic
    else if k = "minInteger" then
      match decodeInt v with
      | .ok n => baseKindLoop rest { b with min_integer := some n }
      | .err => .err
      | .panic => .panic
    else if k = "maxInteger" then
      match decodeInt v with
      | .ok n => baseKindLoop rest { b with max_integer := some n }
      | .err => .err
      | .panic => .panic
    else if k = "minReal" then
      match decodeInt v with
      | .ok n => baseKindLoop rest { b with min_real := some n }
      | .err => .err
      | .panic => .panic
    else if k = "maxReal" then
      match decodeInt v with
      | .ok n => baseKindLoop rest { b with max_real := some n }
      | .err => .err
      | .panic => .panic
    else if k = "minLength" then
      match decodeInt v with
      | .ok n => baseKindLoop rest { b with min_length := some n }
      | .err => .err
      | .panic => .panic
    else if k = "maxLength" then
      match decodeInt v with
      | .ok n => baseKindLoop rest { b with max_length := some n }
      | .err => .err
      | .panic => .panic
    else if k = "refTable" then
      match decodeString v with
      | .ok s => baseKindLoop rest { b with ref_table := some s }
      | .err => .err
      | .panic => .panic
    else if k = "refType" then
      match RefType.fromValue v with
      | .ok r => baseKindLoop rest { b with ref_type := some r }
      | .err => .err
      | .panic => .panic
    else .err

/-- schema/kind.rs BaseKind Deserialize via deserialize_any: a string goes
through Atomic::from_str, an object through the visitor's map branch, and
any other shape is an error. -/
def BaseKind.decode : Json → DRes BaseKind
  | Json.str s =>
    match Atomic.fromStr s with
    | some a => .ok { kind := a }
    | none => .err
  | Json.obj entries => baseKindLoop entries {}
  | _ => .err

/-- schema/kind.rs Kind with its defaults min = max = 1. -/
structure Kind where
  key : BaseKind := {}
  value : Option BaseKind := none
  min : Int := 1
  max : Int := 1
deriving DecidableEq

/-- schema/kind.rs KindVisitor::visit_map. The "max" branch maps the
string "unlimited" to -1 and reaches the todo macro (a panic) on any
other string; no relation between min and max is checked. -/
def kindLoop : List (String × Json) →
    Option BaseKind → Option BaseKind → Int → Int → DRes Kind
  | [], key?, value?, mn, mx =>
    match key? with
    | some kb => .ok { key := kb, value := value?, min := mn, max := mx }
    | none => .err
  | (k, v) :: rest, key?, value?, mn, mx =>
    if k = "key" then
      match decodeOption BaseKind.decode v with
      | .ok kb => kindLoop rest kb value? mn mx
      | .err => .err
      | .panic => .panic
    else if k = "value" then
      match BaseKind.decode v with
      | .ok b => kindLoop rest key? (some b) mn mx
      | .err => .err
      | .panic => .panic
    else if k = "min" then
      match decodeInt v with
      | .ok n => kindLoop rest key? value? n mx
      | .err => .err
      | .panic => .panic
    else if k = "max" then
      match v with
      | Json.str s =>
        if s = "unlimited" then kindLoop rest key? value? mn (-1) else .panic
      | _ =>
        match decodeInt v with
        | .ok n => kindLoop rest key? value? mn n
        | .err => .err
        | .panic => .panic
    else .err

/-- schema/kind.rs Kind Deserialize via deserialize_any: a bare atomic
name yields a scalar kind; an object goes through the map visitor. -/
def Kind.decode : Json → DRes Kind
  | Json.str s =>
    match Atomic.fromStr s with
    | some a => .ok { key := { kind := a } }
    | none => .err
  | Json.obj entries => kindLoop entries none none 1 1
  | _ => .err

/-- The effective min and max that the kind visitor's loop accumulates
over the entries of a kind object, starting from given values. -/
def minMaxFold : List (String × Json) → Int × Int → Int × Int
  | [], mm => mm
  | (k, v) :: rest, (mn, mx) =>
    if k = "min" then
      minMaxFold rest (match decodeInt v with | .ok n => (n, mx) | _ => (mn, mx))
    else if k = "max" then
      match v with
      | Json.str s => minMaxFold rest (if s = "unlimited" then (mn, -1) else (mn, mx))
      | _ => minMaxFold rest (match decodeInt v with | .ok n => (mn, n) | _ => (mn, mx))
    else minMaxFold rest (mn, mx)

/-- schema/column.rs Column with its defaults. -/
structure Column where
  name : String := ""
  kind : Kind := {}
  ephemeral : Bool := false
  mutable : Bool := false
deriving DecidableEq

/-- schema/column.rs ColumnVisitor::visit_map: type, ephemeral and mutable
are decoded; an unknown field is an error. -/
def columnLoop : List (String × Json) → Column → DRes Column
  | [], c => .ok c
  | (k, v) :: rest, c =>
    if k = "type" then
      match Kind.decode v with
      | .ok kd => columnLoop rest { c with kind := kd }
      | .err => .err
      | .panic => .panic
    else if k = "ephemeral" then
      match decodeBool v with
      | .ok b => columnLoop rest { c with ephemeral := b }
      | .err => .err
      | .panic => .panic
    else if k = "mutable" then
      match decodeBool v with
      | .ok b => columnLoop rest { c with mutable := b }
      | .err => .err
      | .panic => .panic
    else .err

def Column.decode : Json → DRes Column
  | Json.obj entries => columnLoop entries {}
  | _ => .err

/-- schema/table.rs Table with its defaults. -/
structure Table where
  name : String := ""
  is_root : Bool := false
  max_rows : Option Int := none
  columns : List Column := []
deriving DecidableEq

def columnsGo : List (String × Json) → DRes (List Column)
  | [] => .ok []
  | (k, v) :: rest =>
    match Column.decode v with
    | .ok c =>
      match columnsGo rest with
      | .ok cs => .ok ({ c with name := k } :: cs)
      | .err => .err
      | .panic => .panic
    | .err => .err
    | .panic => .panic

/-- schema/table.rs deserialize_columns: the value must be a JSON object
(the expect call panics otherwise); each member decodes as a Column and
its key becomes the column name. -/
def columnsFromJson : Json → DRes (List Column)
  | Json.obj entries => columnsGo entries
  | _ => .panic

/-- Derived serde Deserialize of Table: known fields name, isRoot,
maxRows, columns; duplicates are an error, unknown fields are ignored,
absent defaulted fields take their defaults, absent columns is an
error. -/
def tableLoop : List (String × Json) →
    Option String → Option Bool → Option (Option Int) → Option (List Column) →
    DRes Table
  | [], name?, isRoot?, maxRows?, columns? =>
    match columns? with
    | some cs =>
      .ok { name := name?.getD "", is_root := isRoot?.getD false,
            max_rows := maxRows?.getD none, columns := cs }
    | none => .err
  | (k, v) :: rest, name?, isRoot?, maxRows?, columns? =>
    if k = "name" then
      match name? with
      | some _ => .err
      | none =>
        match decodeString v with
        | .ok s => tableLoop rest (some s) isRoot? maxRows? columns?
        | .err => .err
        | .panic => .panic
    else if k = "isRoot" then
      match isRoot? with
      | some _ => .err
      | none =>
        match decodeBool v with
        | .ok b => tableLoop rest name? (some b) maxRows? columns?
        | .err => .err
        | .panic => .panic
    else if k = "maxRows" then
      match maxRows? with
      | some _ => .err
      | none =>
        match decodeOption decodeInt v with
        | .ok m => tableLoop rest name? isRoot? (some m) columns?
        | .err => .err
        | .panic => .panic
    else if k = "columns" then
      match columns? with
      | some _ => .err
      | none =>
        match columnsFromJson v with
        | .ok cs => tableLoop rest name? isRoot? maxRows? (some cs)
        | .err => .err
        | .panic => .panic
    else tableLoop rest name? isRoot? maxRows? columns?

def Table.decode : Json → DRes Table
  | Json.obj entries => tableLoop entries none none none none
  | _ => .err

def tablesGo : List (String × Json) → DRes (List Table)
  | [] => .ok []
  | (k, v) :: rest =>
    match Table.decode v with
    | .ok t =>
      match tablesGo rest with
      | .ok ts => .ok ({ t with name := k } :: ts)
      | .err => .err
      | .panic => .panic
    | .err => .err
    | .panic => .panic

/-- schema/mod.rs deserialize_tables: the value must be a JSON object (the
expect call panics otherwise); each member decodes as a Table and its key
becomes the table name. -/
def tablesFromJson : Json → DRes (List Table)
  | Json.obj entries => tablesGo entries
  | _ => .panic

/-- schema/mod.rs Schema. -/
structure Schema where
  name : String
  version : String
  cksum : String
  tables : List Table
deriving DecidableEq

/-- Derived serde Deserialize of Schema: name, version, cksum and tables
are required; duplicates are an error, unknown fields are ignored. -/
def schemaLoop : List (String × Json) →
    Option String → Option String → Option String → Option (List Table) →
    DRes Schema
  | [], name?, version?, cksum?, tables? =>
    match name?, version?, cksum?, tables? with
    | some n, some ver, some ck, some ts => .ok ⟨n, ver, ck, ts⟩
    | _, _, _, _ => .err
  | (k, v) :: rest, name?, version?, cksum?, tables? =>
    if k = "name" then
      match name? with
      | some _ => .err
      | none =>
        match decodeString v with
        | .ok s => schemaLoop rest (some s) version? cksum? tables?
        | .err => .err
        | .panic => .panic
    else if k = "version" then
      match version? with
      | some _ => .err
      | none =>
        match decodeString v with
        | .ok s => schemaLoop rest name? (some s) cksum? tables?
        | .err => .err
        | .panic => .panic
    else if k = "cksum" then
      match cksum? with
      | some _ => .err
      | none =>
        match decodeString v with
        | .ok s => schemaLoop rest name? version? (some s) tables?
        | .err => .err
        | .panic => .panic
    else if k = "tables" then
      match tables? with
      | some _ => .err
      | none =>
        match tablesFromJson v with
        | .ok ts => schemaLoop rest name? version? cksum? (some ts)
        | .err => .err
        | .panic => .panic
    else schemaLoop rest name? version? cksum? tables?

def Schema.decode : Json → DRes Schema
  | Json.obj entries => schemaLoop entries none none none none
  | _ => .err

/-- schema/mod.rs FromStr: serde_json from_str followed by the derived
Schema deserialization (modelled as parse to a value, then decode). -/
def Schema.fromStr (s : String) : DRes Schema :=
  match fromSliceJson s.toList with
  | some j => Schema.decode j
  | none => .err

/-- The specified invariant on a parsed kind: min ≤ max or max = -1. -/
def Kind.minMaxOk (k : Kind) : Bool :=
  decide (k.min ≤ k.max) || decide (k.max = -1)

/-- The specified invariant over a whole parsed schema. -/
def Schema.kindInvariant (s : Schema) : Bool :=
  s.tables.all fun t => t.columns.all fun c => Kind.minMaxOk c.kind

/-- protocol/request.rs Method. -/
inductive Method where
  | echo : Method
  | listDatabases : Method
  | getSchema : Method
  | transact : Method
deriving DecidableEq

/-- Method Serialize: the wire name string. -/
def Method.wireName : Method → String
  | Method.echo => "echo"
  | Method.listDatabases => "list_dbs"
  | Method.getSchema => "get_schema"
  | Method.transact => "transact"

/-- Method TryFrom of String: exact wire name match. -/
def Method.tryFrom : String → Option Method
  | "echo" => some Method.echo
  | "list_dbs" => some Method.listDatabases
  | "get_schema" => some Method.getSchema
  | "transact" => some Method.transact
  | _ => none

/-- protocol/method/transact.rs Operation, internally tagged with op. -/
inductive Operation where
  | select (table : String) (clauses : List String) : Operation
deriving DecidableEq

def Operation.encode : Operation → Json
  | Operation.select table clauses =>
    Json.obj [("op", Json.str "select"), ("table", Json.str table),
      ("where", Json.arr (clauses.map Json.str))]

/-- Field loop of the derived select variant: table and where required,
duplicates an error, unknown fields ignored, the tag member skipped. -/
def selectLoop : List (String × Json) →
    Option String → Option (List String) → DRes Operation
  | [], t?, cl? =>
    match t?, cl? with
    | some t, some cl => .ok (Operation.select t cl)
    | _, _ => .err
  | (k, v) :: rest, t?, cl? =>
    if k = "op" then selectLoop rest t? cl?
    else if k = "table" then
      match t? with
      | some _ => .err
      | none =>
        match decodeString v with
        | .ok s => selectLoop rest (some s) cl?
        | .err => .err
        | .panic => .panic
    else if k = "where" then
      match cl? with
      | some _ => .err
      | none =>
        match decodeListWith decodeString v with
        | .ok cs => selectLoop rest t? (some cs)
        | .err => .err
        | .panic => .panic
    else selectLoop rest t? cl?

/-- Derived internally tagged Deserialize of Operation: the op member
selects the variant, whose fields are then decoded. -/
def Operation.decode : Json → DRes Operation
  | Json.obj entries =>
    match entries.lookup "op" with
    | some (Json.str "select") => selectLoop entries none none
    | _ => .err
  | _ => .err

/-- The concrete Params implementations behind the dyn Params object of
protocol/request.rs: EchoParams and GetSchemaParams are newtype structs
(serializing as their inner value), TransactParams serializes as the
database name followed by the operations. -/
inductive Params where
  | echo (args : List String) : Params
  | getSchema (database : String) : Params
  | transact (database : String) (operations : List Operation) : Params
deriving DecidableEq

def Params.encode : Params → Json
  | Params.echo args => Json.arr (args.map Json.str)
  | Params.getSchema db => Json.str db
  | Params.transact db ops => Json.arr (Json.str db :: ops.map Operation.encode)

/-- protocol/method/echo.rs EchoParams derived Deserialize. -/
def EchoParams.decode : Json → DRes (List String) := decodeListWith decodeString

/-- protocol/method/get_schema.rs GetSchemaParams derived Deserialize. -/
def GetSchemaParams.decode : Json → DRes String := decodeString

/-- Field loop of the derived TransactParams Deserialize: database and
operations required, duplicates an error, unknown fields ignored. -/
def transactLoop : List (String × Json) →
    Option String → Option (List Operation) → DRes (String × List Operation)
  | [], db?, ops? =>
    match db?, ops? with
    | some db, some ops => .ok (db, ops)
    | _, _ => .err
  | (k, v) :: rest, db?, ops? =>
    if k = "database" then
      match db? with
      | some _ => .err
      | none =>
        match decodeString v with
        | .ok s => transactLoop rest (some s) ops?
        | .err => .err
        | .panic => .panic
    else if k = "operations" then
      match ops? with
      | some _ => .err
      | none =>
        match decodeListWith Operation.decode v with
        | .ok os => transactLoop rest db? (some os)
        | .err => .err
        | .panic => .panic
    else transactLoop rest db? ops?

def TransactParams.decode : Json → DRes (String × List Operation)
  | Json.obj entries => transactLoop entries none none
  | _ => .err

/-- protocol/request.rs Request. -/
structure Request where
  id : Option Uuid
  method : Method
  params : Option Params
deriving DecidableEq

/-- protocol/request.rs Serialize: a map with id (null when absent, the
tagged uuid form otherwise), the method wire name, and params, written as
an empty array when absent. -/
def Request.encode (r : Request) : Json :=
  Json.obj
    [("id", match r.id with | some u => Uuid.encode u | none => Json.null),
     ("method", Json.str (Method.wireName r.method)),
     ("params", match r.params with | some p => Params.encode p | none => Json.arr [])]

/-- protocol/request.rs RequestVisitor::visit_map field loop. As in the
source, the id branch feeds the literal key string k to the uuid parser
and the method branch feeds k to Method::try_from; the entry's value is
only used by the params branch. -/
def requestLoop : List (String × Json) →
    Option Uuid → Option Method → Option Json →
    DRes (Option Uuid × Option Method × Option Json)
  | [], id?, m?, p? => .ok (id?, m?, p?)
  | (k, v) :: rest, id?, m?, p? =>
    if k = "id" then
      match uuidParse k with
      | some u => requestLoop rest (some u) m? p?
      | none => .err
    else if k = "method" then
      match Method.tryFrom k with
      | some m => requestLoop rest id? (some m) p?
      | none => .err
    else if k = "params" then requestLoop rest id? m? (some v)
    else .err

/-- protocol/request.rs Deserialize: after the field loop, the method
selects the concrete params decoder; absent params is a missing field
error except for list_dbs. -/
def Request.decode : Json → DRes Request
  | Json.obj entries =>
    match requestLoop entries none none none with
    | .ok (id?, some m, p?) =>
      match m with
      | Method.echo =>
        match p? with
        | some v =>
          match EchoParams.decode v with
          | .ok args => .ok ⟨id?, m, some (Params.echo args)⟩
          | .err => .err
          | .panic => .panic
        | none => .err
      | Method.listDatabases => .ok ⟨id?, m, none⟩
      | Method.getSchema =>
        match p? with
        | some v =>
          match GetSchemaParams.decode v with
          | .ok s => .ok ⟨id?, m, some (Params.getSchema s)⟩
          | .err => .err
          | .panic => .panic
        | none => .err
      | Method.transact =>
        match p? with
        | some v =>
          match TransactParams.decode v with
          | .ok (db, ops) => .ok ⟨id?, m, some (Params.transact db ops)⟩
          | .err => .err
          | .panic => .panic
        | none => .err
    | .ok (_, none, _) => .err
    | .err => .err
    | .panic => .panic
  | _ => .err

/-- protocol/response.rs Response, its result kept as raw JSON. -/
structure Response where
  id : Option Uuid
  result : Option Json
  error : Option String

/-- Derived serde Deserialize of Response: each Option field defaults to
None when absent and accepts null as None; a duplicate member is an
error; unknown members are ignored. -/
def responseLoop : List (String × Json) →
    Option (Option Uuid) → Option (Option Json) → Option (Option String) →
    DRes Response
  | [], id?, res?, err? => .ok ⟨id?.getD none, res?.getD none, err?.getD none⟩
  | (k, v) :: rest, id?, res?, err? =>
    if k = "id" then
      match id? with
      | some _ => .err
      | none =>
        match decodeOption Uuid.decode v with
        | .ok u => responseLoop rest (some u) res? err?
        | .err => .err
        | .panic => .panic
    else if k = "result" then
      match res? with
      | some _ => .err
      | none =>
        responseLoop rest id?
          (some (match v with | Json.null => none | w => some w)) err?
    else if k = "error" then
      match err? with
      | some _ => .err
      | none =>
        match decodeOption decodeString v with
        | .ok e => responseLoop rest id? res? (some e)
        | .err => .err
        | .panic => .panic
    else responseLoop rest id? res? err?

def Response.decode : Json → DRes Response
  | Json.obj entries => responseLoop entries none none none
  | _ => .err

/-- protocol/message.rs Message. -/
inductive Message where
  | request (req : Request) : Message
  | response (res : Response) : Message

/-- protocol/message.rs Deserialize: the members are collected into a
serde_json object map (key sorted, later duplicates overwriting); the
presence of a method member selects Request, its absence Response. -/
def Message.decode : Json → DRes Message
  | Json.obj entries =>
    let target := entries.foldl (fun acc kv => insertSorted strLt kv.1 kv.2 acc) []
    if (target.lookup "method").isSome then
      match Request.decode (Json.obj target) with
      | .ok r => .ok (Message.request r)
      | .err => .err
      | .panic => .panic
    else
      match Response.decode (Json.obj target) with
      | .ok r => .ok (Message.response r)
      | .err => .err
      | .panic => .panic
  | _ => .err

/-- codec.rs stack alphabet. -/
inductive BufferTag where
  | obj : BufferTag
  | str : BufferTag
deriving DecidableEq

inductive ScanResult where
  | complete (offset : Nat) : ScanResult
  | incomplete (tags : List BufferTag) : ScanResult
  | corrupted : ScanResult
deriving DecidableEq

/-- codec.rs try_decode_message scanning loop, expressed character by
character. In string state skip to the next quote (no escape handling,
exactly as in the source); in object state dispatch on quote and braces,
reporting the offset one past the closing brace that empties the stack;
with an empty stack skip to the next opening brace, and fail as
corrupted when no opening brace remains in a nonempty remainder. -/
def scan : List BufferTag → List Char → Nat → ScanResult
  | BufferTag.str :: rest, c :: cs, k =>
    if c = '\"' then scan rest cs (k + 1)
    else scan (BufferTag.str :: rest) cs (k + 1)
  | BufferTag.obj :: rest, c :: cs, k =>
    if c = '\"' then scan (BufferTag.str :: BufferTag.obj :: rest) cs (k + 1)
    else if c = '\x7b' then scan (BufferTag.obj :: BufferTag.obj :: rest) cs (k + 1)
    else if c = '\x7d' then
      if rest.isEmpty then ScanResult.complete (k + 1) else scan rest cs (k + 1)
    else scan (BufferTag.obj :: rest) cs (k + 1)
  | [], c :: cs, k =>
    if c = '\x7b' then scan [BufferTag.obj] cs (k + 1)
    else if cs.contains '\x7b' then scan [] cs (k + 1)
    else ScanResult.corrupted
  | tags, [], _ => ScanResult.incomplete tags

/-- codec.rs Codec state: the held bytes and the structural stack. -/
structure CodecState where
  data : List Char := []
  tags : List BufferTag := []

/-- Outcome of one decode call on the codec. -/
inductive CodecOut where
  | ok (msg : Option Message) (consumed : Nat) : CodecOut
  | decodeErr : CodecOut
  | corrupted : CodecOut
  | panicked : CodecOut

/-- codec.rs try_decode_message. On a completed top level object the
whole received slice is appended to the held buffer (the source extends
with src, not with the consumed prefix) and the buffer is parsed as one
Message, being cleared on success; an incomplete scan buffers the slice;
an empty stack with no opening brace is a corrupted stream. -/
def tryDecodeMessage (st : CodecState) (src : List Char) : CodecOut × CodecState :=
  match scan st.tags src 0 with
  | ScanResult.complete off =>
    let dat := st.data ++ src
    match fromSliceJson dat with
    | some j =>
      match Message.decode j with
      | .ok msg => (CodecOut.ok (some msg) off, { data := [], tags := [] })
      | .err => (CodecOut.decodeErr, { data := dat, tags := [] })
      | .panic => (CodecOut.panicked, { data := dat, tags := [] })
    | none => (CodecOut.decodeErr, { data := dat, tags := [] })
  | ScanResult.incomplete tags =>
    (CodecOut.ok none src.length, { data := st.data ++ src, tags := tags })
  | ScanResult.corrupted => (CodecOut.corrupted, st)

/-- codec.rs Decoder::decode: run try_decode_message and advance the
input buffer by the consumed count on success; on an error the buffer is
not advanced. -/
def Codec.decode (st : CodecState) (src : List Char) :
    CodecOut × CodecState × List Char :=
  match tryDecodeMessage st src with
  | (CodecOut.ok msg consume, st2) => (CodecOut.ok msg consume, st2, src.drop consume)
  | (out, st2) => (out, st2, src)

/-- ovsdb-build/src/field.rs Field::new, restricted to the identifier and
attribute logic: a column literally named type becomes the field ident
kind carrying a serde rename attribute; any other name is its own ident
(name_to_ident is the identity on the spelling) with no attributes. -/
def Field.new (name : String) : String × List String :=
  if name = "type" then ("kind", ["#[serde(rename = \"type\")]"])
  else (name, [])

/-- client.rs ClientError variants (payloads elided). -/
inductive ClientError where
  | internal : ClientError
  | connectionFailed : ClientError
  | shutdownError : ClientError
  | notRunning : ClientError
  | unexpectedResult : ClientError
  | communicationFailure : ClientError
  | ovsdbError : ClientError
deriving DecidableEq

/-- response.rs Response::result: a held result value is fed to the
caller's decoder, a parse failure surfacing as ParseError (err); an
absent result is success with None. The error field is not consulted. -/
def Response.resultOf {α : Type} (decT : Json → DRes α) (r : Response) :
    DRes (Option α) :=
  match r.result with
  | some v =>
    match decT v with
    | .ok x => .ok (some x)
    | .err => .err
    | .panic => .panic
  | none => .ok none

/-- Outcome of a client call. -/
inductive CRes (α : Type) where
  | ok (val : α) : CRes α
  | error (e : ClientError) : CRes α
  | panic : CRes α

/-- client.rs Client::execute, response handling tail: the received
response's result is decoded; a parse failure surfaces as an OvsdbError;
otherwise the optional value is returned as is, with no inspection of
the response's error field. -/
def Client.executeResult {α : Type} (decT : Json → DRes α) (res : Response) :
    CRes (Option α) :=
  match Response.resultOf decT res with
  | .ok x => CRes.ok x
  | .err => CRes.error ClientError.ovsdbError
  | .panic => CRes.panic

/-- A well formed version 4 style uuid used as concrete input (the hex
digits of 36bef046-7da7-43a5-905a-c17899216fcb). -/
def sampleUuid : Uuid :=
  ⟨[3, 6, 11, 14, 15, 0, 4, 6, 7, 13, 10, 7, 4, 3, 10, 5, 9, 0, 5, 10,
    12, 1, 7, 8, 9, 9, 2, 1, 6, 15, 12, 11], by rfl⟩

def sampleUuidStr : String := "36bef046-7da7-43a5-905a-c17899216fcb"

/-- A concrete request as built by Request::new for the echo method. -/
def sampleRequest : Request :=
  ⟨some sampleUuid, Method.echo, some (Params.echo [])⟩

/-- One response envelope as received bytes. -/
def respChunk : String := "\x7b\"id\":null,\"result\":null,\"error\":null\x7d"

/-- Two response envelopes concatenated into a single received chunk. -/
def doubleRespChunk : String := respChunk ++ respChunk

/-- The response envelope with all members null. -/
def emptyResponse : Response := ⟨none, none, none⟩

/-- A schema text whose single column declares min 1 (by default) and
max 0, which the parser accepts without validating the relation. -/
def exSchemaText : String :=
  "\x7b\"name\":\"db\",\"version\":\"0\",\"cksum\":\"c\",\"tables\":\x7b\"T\":\x7b\"columns\":\x7b\"c\":\x7b\"type\":\x7b\"key\":\"integer\",\"max\":0\x7d\x7d\x7d\x7d\x7d\x7d"

def exColumn : Column :=
  { name := "c", kind := { key := { kind := Atomic.integer }, min := 1, max := 0 } }

def exTable : Table := { name := "T", columns := [exColumn] }

/-- The schema that exSchemaText parses to. -/
def exSchema : Schema :=
  { name := "db", version := "0", cksum := "c", tables := [exTable] }

/-- Decoding i64 elements never panics: the element decoder returns a
value or an error. -/
theorem decodeElems_int_ne_panic (xs : List Json) :
    decodeElems decodeInt xs ≠ DRes.panic := by
  induction xs with
  | nil => simp [decodeElems]
  | cons x xs ih =>
    cases x with
    | int n =>
      simp only [decodeElems, decodeInt]
      cases h : decodeElems decodeInt xs <;> simp_all
    | null => simp [decodeElems, decodeInt]
    | bool b => simp [decodeElems, decodeInt]
    | str s => simp [decodeElems, decodeInt]
    | arr es => simp [decodeElems, decodeInt]
    | obj es => simp [decodeElems, decodeInt]

/-- A list whose elements all decode to the empty list is itself empty. -/
theorem decodeElems_ok_nil {α : Type} (d : Json → DRes α) (xs : List Json)
    (h : decodeElems d xs = DRes.ok []) : xs = [] := by
  cases xs with
  | nil => rfl
  | cons x xs =>
    simp only [decodeElems] at h
    cases hd : d x <;> rw [hd] at h
    · cases he : decodeElems d xs <;> rw [he] at h <;> simp at h
    · simp at h
    · simp at h

/-- Loop invariant of the kind visitor: a successful run leaves in min
and max exactly the values minMaxFold accumulates over the entries. -/
theorem kindLoop_minMax :
    ∀ (entries : List (String × Json)) (key? value? : Option BaseKind)
      (mn mx : Int) (k : Kind),
      kindLoop entries key? value? mn mx = DRes.ok k →
      (k.min, k.max) = minMaxFold entries (mn, mx) := by
  intro entries
  induction entries with
  | nil =>
    intro key? value? mn mx k h
    cases key? with
    | none => simp [kindLoop] at h
    | some kb =>
      simp only [kindLoop, DRes.ok.injEq] at h
      subst h
      simp [minMaxFold]
  | cons head rest ih =>
    intro key? value? mn mx k h
    obtain ⟨s, v⟩ := head
    by_cases h1 : s = "key"
    · subst h1
      simp only [kindLoop] at h
      simp only [minMaxFold]
      norm_num at h ⊢
      cases hd : decodeOption BaseKind.decode v <;> rw [hd] at h
      · exact ih _ _ _ _ _ h
      · simp at h
      · simp at h
    · by_cases h2 : s = "value"
      · subst h2
        simp only [kindLoop] at h
        simp only [minMaxFold]
        norm_num at h ⊢
        cases hd : BaseKind.decode v <;> rw [hd] at h
        · exact ih _ _ _ _ _ h
        · simp at h
        · simp at h
      · by_cases h3 : s = "min"
        · subst h3
          simp only [kindLoop] at h
          simp only [minMaxFold]
          norm_num at h ⊢
          cases hd : decodeInt v <;> rw [hd] at h
          · simpa using ih _ _ _ _ _ h
          · simp at h
          · simp at h
        · by_cases h4 : s = "max"
          · subst h4
            simp only [kindLoop] at h
            simp only [minMaxFold]
            norm_num at h ⊢
            cases v with
            | str t =>
              by_cases ht : t = "unlimited"
              · subst ht
                norm_num at h ⊢
                exact ih _ _ _ _ _ h
              · simp [ht] at h
            | null =>
              cases hd : decodeInt Json.null <;> rw [hd] at h <;> simp_all [decodeInt]
            | bool b =>
              cases hd : decodeInt (Json.bool b) <;> rw [hd] at h <;> simp_all [decodeInt]
            | int n =>
              simp only [decodeInt] at h ⊢
              exact ih _ _ _ _ _ h
            | arr es =>
              cases hd : decodeInt (Json.arr es) <;> rw [hd] at h <;> simp_all [decodeInt]
            | obj es =>
              cases hd : decodeInt (Json.obj es) <;> rw [hd] at h <;> simp_all [decodeInt]
          · simp only [kindLoop, h1, h2, h3, h4] at h
            simp only [minMaxFold, h1, h2, h3, h4]
            norm_num at h ⊢
            simp at h

/-- C1: decode after encode is claimed to be the identity on every
well-formed tagged value of each container type; for the Optional
container with an absent value the encoder emits the "map"-tagged empty
array which the decoder does not recognize as absent, so the round trip
returns a decode error instead of the value. -/
theorem optional_roundtrip_fails_on_absent :
    Optional.decode decodeString
      (Optional.encode Json.str (none : Option String)) = DRes.err ∧
    (DRes.err : DRes (Option String)) ≠ DRes.ok none :=
  ⟨rfl, by decide⟩

/-- C2: the Optional serializer is claimed to emit the empty set form for
an absent value; the source writes the tag string "map" instead, so the
emitted value is the map-tagged empty array, not the set-tagged one. -/
theorem optional_absent_encodes_map_tag :
    Optional.encode Json.str (none : Option String) =
      Json.arr [Json.str "map", Json.arr []] ∧
    Optional.encode Json.str (none : Option String) ≠
      Json.arr [Json.str "set", Json.arr []] := by
  constructor
  · rfl
  · intro h
    rw [Optional.encode] at h
    injection h with h1
    injection h1 with h2 _
    injection h2 with h3
    exact absurd h3 (by decide)

/-- C3: a chunk holding exactly one complete envelope decodes to that one
message, but a chunk holding two concatenated complete envelopes fails
with a decode error, because try_decode_message appends the entire chunk
(not just the completed object's bytes) to its buffer before parsing. -/
theorem codec_concatenated_envelopes_decode_error :
    (tryDecodeMessage {} respChunk.toList).1 =
      CodecOut.ok (some (Message.response emptyResponse)) respChunk.toList.length ∧
    (tryDecodeMessage {} doubleRespChunk.toList).1 = CodecOut.decodeErr :=
  ⟨rfl, rfl⟩

/-- C4: encoding a request yields a single JSON object, but decoding that
object back fails, because the request visitor parses the literal key
strings "id" and "method" (instead of their values) through the uuid and
method parsers; the round trip therefore errors for every request. -/
theorem request_roundtrip_decode_fails :
    Request.encode sampleRequest = Json.obj
      [("id", Json.arr [Json.str "uuid", Json.str sampleUuidStr]),
       ("method", Json.str "echo"), ("params", Json.arr [])] ∧
    Request.decode (Request.encode sampleRequest) = DRes.err ∧
    Message.decode (Request.encode sampleRequest) = DRes.err :=
  ⟨rfl, rfl, rfl⟩

/-- C5 counterexample: the generic set reader does not accept a bare
scalar as a one element set; a bare string is rejected with an error. -/
theorem set_decode_rejects_bare_scalar_counterexample :
    Set.decode decodeString (Json.str "red") = DRes.err ∧
    (DRes.err : DRes (List String)) ≠ DRes.ok ["red"] :=
  ⟨rfl, by decide⟩

/-- C5 (amended): the generic set reader rejects every bare scalar (null,
boolean, integer, string); only the UuidSet reader additionally accepts
the tagged uuid form as a one element set. -/
theorem setReader_tagged_forms_only :
    (∀ (α : Type) (decT : Json → DRes α),
      Set.decode decT Json.null = DRes.err ∧
      (∀ b : Bool, Set.decode decT (Json.bool b) = DRes.err) ∧
      (∀ n : Int, Set.decode decT (Json.int n) = DRes.err) ∧
      (∀ s : String, Set.decode decT (Json.str s) = DRes.err)) ∧
    (∀ (s : String) (u : Uuid), uuidParse s = some u →
      UuidSet.decode (Json.arr [Json.str "uuid", Json.str s]) = DRes.ok [u]) := by
  refine ⟨fun α decT => ⟨rfl, fun _ => rfl, fun _ => rfl, fun _ => rfl⟩, ?_⟩
  intro s u hu
  simp [UuidSet.decode, decodeString, hu]

/-- Witness for the amended C5 theorem at a concrete uuid string. -/
theorem setReader_tagged_forms_only_witness :
    uuidParse sampleUuidStr = some sampleUuid ∧
    UuidSet.decode (Json.arr [Json.str "uuid", Json.str sampleUuidStr]) =
      DRes.ok [sampleUuid] :=
  ⟨by rfl, setReader_tagged_forms_only.2 sampleUuidStr sampleUuid (by rfl)⟩

/-- C6 counterexample: a schema whose column kind declares max 0 with the
default min 1 parses successfully, and the parsed schema violates the
claimed invariant min ≤ max or max = -1. -/
theorem schema_parse_accepts_min_gt_max_counterexample :
    Schema.fromStr exSchemaText = DRes.ok exSchema ∧
    Schema.kindInvariant exSchema = false :=
  ⟨by rfl, by rfl⟩

/-- C6 (amended): the kind parser copies min and max verbatim out of the
input (defaulting both to 1 and mapping the string "unlimited" to -1)
and enforces no relation between them: a successful parse of a kind
object leaves exactly the folded min and max of its entries, and a bare
atomic name leaves the defaults. -/
theorem kind_parse_min_max_characterization :
    (∀ (entries : List (String × Json)) (k : Kind),
      Kind.decode (Json.obj entries) = DRes.ok k →
      (k.min, k.max) = minMaxFold entries (1, 1)) ∧
    (∀ (s : String) (k : Kind), Kind.decode (Json.str s) = DRes.ok k →
      k.min = 1 ∧ k.max = 1) := by
  constructor
  · intro entries k h
    simp only [Kind.decode] at h
    exact kindLoop_minMax entries none none 1 1 k h
  · intro s k h
    simp only [Kind.decode] at h
    cases ha : Atomic.fromStr s <;> rw [ha] at h
    · simp at h
    · simp only [DRes.ok.injEq] at h
      subst h
      exact ⟨rfl, rfl⟩

/-- Witness for the amended C6 theorem: an unlimited max parses to -1 and
matches the fold of the entries. -/
theorem kind_parse_min_max_witness :
    Kind.decode (Json.obj [("key", Json.str "integer"),
      ("max", Json.str "unlimited")]) =
      DRes.ok { key := { kind := Atomic.integer }, min := 1, max := -1 } ∧
    (((1 : Int), (-1 : Int)) =
      minMaxFold [("key", Json.str "integer"), ("max", Json.str "unlimited")] (1, 1)) :=
  ⟨by rfl,
   kind_parse_min_max_characterization.1
     [("key", Json.str "integer"), ("max", Json.str "unlimited")]
     { key := { kind := Atomic.integer }, min := 1, max := -1 } (by rfl)⟩

/-- C7 counterexample: the enumeration decoder is claimed to return an
error on any input other than a string or the empty set; on the
truncated tagged array it panics (the unwrap inside the set visitor)
instead of returning an error. -/
theorem enumeration_truncated_set_panics_counterexample :
    enumeration.deserialize TestFailMode.none TestFailMode.fromValue
      (Json.arr [Json.str "set"]) = DRes.panic ∧
    (DRes.panic : DRes TestFailMode) ≠ DRes.err :=
  ⟨rfl, by decide⟩

/-- C7 (amended): the enumeration serializer emits the empty set for the
default variant and the enum's own encoding otherwise; the decoder
delegates strings to the enum's own decoder, maps the empty set to the
default variant, and returns an error on every other input except the
truncated arrays (the empty array and the lone set tag), which panic. -/
theorem enumeration_dispatch {α : Type} [DecidableEq α] (dflt : α)
    (encT : α → Json) (decT : Json → DRes α) :
    enumeration.serialize dflt encT dflt = Json.arr [Json.str "set", Json.arr []] ∧
    (∀ v : α, v ≠ dflt → enumeration.serialize dflt encT v = encT v) ∧
    (∀ s : String,
      enumeration.deserialize dflt decT (Json.str s) = decT (Json.str s)) ∧
    enumeration.deserialize dflt decT (Json.arr [Json.str "set", Json.arr []]) =
      DRes.ok dflt ∧
    enumeration.deserialize dflt decT (Json.arr []) = DRes.panic ∧
    enumeration.deserialize dflt decT (Json.arr [Json.str "set"]) = DRes.panic ∧
    (∀ j : Json, j.isString = false →
      j ≠ Json.arr [Json.str "set", Json.arr []] →
      j ≠ Json.arr [] → j ≠ Json.arr [Json.str "set"] →
      enumeration.deserialize dflt decT j = DRes.err) := by
  refine ⟨by simp [enumeration.serialize, Set.encode], ?_, ?_, rfl, rfl, rfl, ?_⟩
  · intro v hv
    simp [enumeration.serialize, hv]
  · intro s
    rfl
  · intro j hstr hne1 hne2 hne3
    cases j with
    | null => rfl
    | bool b => rfl
    | int n => rfl
    | obj es => rfl
    | str s => simp [Json.isString] at hstr
    | arr elems =>
      cases elems with
      | nil => exact absurd rfl hne2
      | cons e rest =>
        cases e with
        | str s =>
          by_cases hs : s = "set"
          · subst hs
            cases rest with
            | nil => exact absurd rfl hne3
            | cons v rest2 =>
              cases v with
              | arr xs =>
                simp only [enumeration.deserialize, Json.isString, Bool.false_eq_true,
                  if_false, Set.decode, decodeString, decodeListWith]
                cases hde : decodeElems decodeInt xs with
                | ok ys =>
                  cases rest2 with
                  | nil =>
                    cases ys with
                    | nil =>
                      have hxs : xs = [] := decodeElems_ok_nil decodeInt xs hde
                      subst hxs
                      exact absurd rfl hne1
                    | cons y ys2 => simp [hde]
                  | cons w rest3 => simp [hde]
                | err => simp [hde]
                | panic => exact absurd hde (decodeElems_int_ne_panic xs)
              | null =>
                simp [enumeration.deserialize, Json.isString, Set.decode, decodeString,
                  decodeListWith]
              | bool b =>
                simp [enumeration.deserialize, Json.isString, Set.decode, decodeString,
                  decodeListWith]
              | int n =>
                simp [enumeration.deserialize, Json.isString, Set.decode, decodeString,
                  decodeListWith]
              | str t =>
                simp [enumeration.deserialize, Json.isString, Set.decode, decodeString,
                  decodeListWith]
              | obj es =>
                simp [enumeration.deserialize, Json.isString, Set.decode, decodeString,
                  decodeListWith]
          · simp [enumeration.deserialize, Json.isString, Set.decode, decodeString, hs]
        | null => simp [enumeration.deserialize, Json.isString, Set.decode, decodeString]
        | bool b => simp [enumeration.deserialize, Json.isString, Set.decode, decodeString]
        | int n => simp [enumeration.deserialize, Json.isString, Set.decode, decodeString]
        | arr es => simp [enumeration.deserialize, Json.isString, Set.decode, decodeString]
        | obj es => simp [enumeration.deserialize, Json.isString, Set.decode, decodeString]

/-- Witness for the amended C7 theorem on the fail_mode enumeration. -/
theorem enumeration_dispatch_witness :
    enumeration.serialize TestFailMode.none TestFailMode.encode TestFailMode.secure =
      TestFailMode.encode TestFailMode.secure ∧
    enumeration.deserialize TestFailMode.none TestFailMode.fromValue (Json.int 3) =
      DRes.err :=
  ⟨(enumeration_dispatch TestFailMode.none TestFailMode.encode
      TestFailMode.fromValue).2.1 TestFailMode.secure (by decide),
   (enumeration_dispatch TestFailMode.none TestFailMode.encode
      TestFailMode.fromValue).2.2.2.2.2.2 (Json.int 3) (by rfl)
     (fun h => Json.noConfusion h) (fun h => Json.noConfusion h)
     (fun h => Json.noConfusion h)⟩

/-- C8: decoding is claimed to return error values on malformed input,
but the truncated tagged array panics in the set visitor (unwrap of a
missing payload) and a schema max field holding a string other than
unlimited panics in the kind visitor (the todo macro). -/
theorem public_decoders_panic_on_malformed_input :
    Set.decode decodeString (Json.arr [Json.str "set"]) = DRes.panic ∧
    Kind.decode (Json.obj [("key", Json.str "integer"),
      ("max", Json.str "infinite")]) = DRes.panic :=
  ⟨rfl, rfl⟩

/-- C9: a column literally named type becomes the field ident kind with a
serde rename attribute keeping the wire form type; every other column
name is kept verbatim as the field ident with no attributes. -/
theorem field_new_type_rename :
    Field.new "type" = ("kind", ["#[serde(rename = \"type\")]"]) ∧
    ∀ n : String, n ≠ "type" → Field.new n = (n, ([] : List String)) := by
  constructor
  · rfl
  · intro n hn
    simp [Field.new, hn]

/-- Witness for the C9 theorem at an ordinary column name. -/
theorem field_new_type_rename_witness :
    ("color" : String) ≠ "type" ∧ Field.new "color" = ("color", []) :=
  ⟨by decide, field_new_type_rename.2 "color" (by decide)⟩

/-- C10: when the result member is null the response decodes with result
None, Response::result succeeds with None whatever the error string
holds, and the execute tail returns success with None, never surfacing
the server's error string as an Err. -/
theorem response_error_field_ignored {α : Type} (decT : Json → DRes α)
    (rid : Option Uuid) (e : String) :
    Response.resultOf decT ⟨rid, none, some e⟩ = DRes.ok none ∧
    Client.executeResult decT ⟨rid, none, some e⟩ = CRes.ok none ∧
    Response.decode (Json.obj
      [("id", Json.null), ("result", Json.null), ("error", Json.str e)]) =
      DRes.ok ⟨none, none, some e⟩ :=
  ⟨rfl, rfl, rfl⟩

/-- Witness for the C10 theorem at a concrete error string. -/
theorem response_error_field_ignored_witness :
    Response.resultOf decodeString
      (⟨none, none, some "constraint violation"⟩ : Response) = DRes.ok none ∧
    Client.executeResult decodeString
      (⟨none, none, some "constraint violation"⟩ : Response) = CRes.ok none :=
  ⟨(response_error_field_ignored decodeString none "constraint violation").1,
   (response_error_field_ignored decodeString none "constraint violation").2.1⟩

end Ovsdb
